import Mathlib

/-
Verification of the video-encode tool (src/video-encode.py): a shallow
embedding of its data model (ffprobe snapshot, handbrake command builder),
its quality binary search, and its subtitle/audio decision policy, with
theorems settling the specification claims. Machine floats of the script
are modelled as exact rationals; external processes (ffprobe sample
measurements) are modelled as oracles passed in as functions.
-/

namespace VideoEncode

/-! ## Data model: the dataclasses of the script -/

/-- The `Subtitle` dataclass of the script. -/
structure Subtitle where
  index : Int
  language : String
  forced : Bool
  type : String
deriving DecidableEq

/-- The `Audio` dataclass of the script. -/
structure Audio where
  index : Int
  language : String
  channels : Int
deriving DecidableEq

/-- One entry of the ffprobe `streams` array, reduced to the fields the
script reads. For a video stream, `side_data_list` keeps only each side
data record's `side_data_type` tag, the only field the script looks at.
For a subtitle stream, `disposition_forced` is the raw integer of
`disposition.forced`. -/
inductive MediaStream where
  | video (height : Int) (avg_frame_rate : String) (side_data_list : List String)
  | audio (language : String) (channels : Int)
  | subtitle (language : String) (disposition_forced : Int) (codec_name : String)
deriving DecidableEq

/-- Whether a stream entry has `codec_type == 'video'`. -/
def MediaStream.isVideo : MediaStream → Bool
  | .video _ _ _ => true
  | _ => false

/-- The mutable state built up by `FFProbe.__init__` while it scans the
`streams` array: the probe fields plus the per-type running counters. -/
structure ProbeAcc where
  height : Int
  frame_rate : String
  is_dolby_vision : Bool
  audios : List Audio
  subtitles : List Subtitle
  audio_index : Int
  subtitle_index : Int
deriving DecidableEq

/-- The state of `FFProbe.__init__` just before the stream loop
(`height = 0`, `is_dolby_vision = False`, empty track lists, counters 0). -/
def probeInit : ProbeAcc :=
  ⟨0, "0", false, [], [], 0, 0⟩

/-- The body of the stream loop of `FFProbe.__init__` (lines 69-91): a
video stream records height and frame rate and, when its side data list is
truthy (non-empty), recomputes the Dolby Vision flag from the first
record's type tag; audio and subtitle streams append a track carrying the
next value of their running 1-based counter. -/
def processStream (acc : ProbeAcc) (s : MediaStream) : ProbeAcc :=
  match s with
  | .video h fr sdl =>
      { acc with
        height := h
        frame_rate := fr
        is_dolby_vision :=
          match sdl with
          | [] => acc.is_dolby_vision
          | t :: _ => t == "DOVI configuration record" }
  | .audio lang ch =>
      { acc with
        audio_index := acc.audio_index + 1
        audios := acc.audios ++ [⟨acc.audio_index + 1, lang, ch⟩] }
  | .subtitle lang dispForced codec =>
      { acc with
        subtitle_index := acc.subtitle_index + 1
        subtitles := acc.subtitles ++ [⟨acc.subtitle_index + 1, lang, dispForced == 1, codec⟩] }

/-- The whole stream loop of `FFProbe.__init__`: fold the loop body over
the probed streams starting from the initial field values. -/
def probeStreams (streams : List MediaStream) : ProbeAcc :=
  streams.foldl processStream probeInit

/-! ## The Handbrake command builder -/

/-- `os.path.basename`: the part of the path after the last slash. -/
def basename (p : String) : String :=
  (p.splitOn "/").getLastD p

/-- The `Handbrake` builder object: one field per command fragment, as in
`Handbrake.__init__`. -/
structure Handbrake where
  input_file : String
  input_command : List String
  output_command : List String
  quality_command : List String
  crop_command : List String
  previews_command : List String
  burn_subtitle_command : List String
  start_at_command : List String
  stop_at_command : List String
  encoder_command : List String
  audio_encoder_command : List String
deriving DecidableEq

/-- `Handbrake.__init__`: empty fragments except the fixed crop, previews
and encoder defaults. -/
def Handbrake.mkNew : Handbrake where
  input_file := ""
  input_command := []
  output_command := []
  quality_command := []
  crop_command := ["--crop", "0:0:0:0"]
  previews_command := ["--previews", "1:0"]
  burn_subtitle_command := []
  start_at_command := []
  stop_at_command := []
  encoder_command := ["--encoder", "vt_h265_10bit",
    "--encoder-preset", "quality",
    "--encoder-profile", "auto",
    "--encoder-level", "auto"]
  audio_encoder_command := []

/-- `Handbrake.input`: set the input and default the output to the
input's basename. -/
def Handbrake.input (hb : Handbrake) (input_file_path : String) : Handbrake :=
  { hb with
    input_file := input_file_path
    input_command := ["--input", input_file_path]
    output_command := ["--output", basename input_file_path] }

/-- `Handbrake.output`. -/
def Handbrake.output (hb : Handbrake) (output_file_path : String) : Handbrake :=
  { hb with output_command := ["--output", output_file_path] }

/-- `Handbrake.start_time` (the script renders the offset into
`seconds:{t}s`; the float is modelled as an exact rational). -/
def Handbrake.start_time (hb : Handbrake) (time_in_seconds : ℚ) : Handbrake :=
  { hb with start_at_command :=
      ["--start-at", "seconds:" ++ toString time_in_seconds ++ "s"] }

/-- `Handbrake.stop_at`. -/
def Handbrake.stop_at (hb : Handbrake) (time_in_seconds : ℚ) : Handbrake :=
  { hb with stop_at_command :=
      ["--stop-at", "seconds:" ++ toString time_in_seconds ++ "s"] }

/-- `Handbrake.quality`. -/
def Handbrake.quality (hb : Handbrake) (cq_number : Int) : Handbrake :=
  { hb with quality_command := ["--quality", toString cq_number] }

/-- `Handbrake.crop`: switch from explicit zero margins to
threshold-frame detection. -/
def Handbrake.crop (hb : Handbrake) : Handbrake :=
  { hb with crop_command := ["--crop-threshold-frames", "3"] }

/-- `Handbrake.previews`. -/
def Handbrake.previews (hb : Handbrake) (previews_number : Int) : Handbrake :=
  { hb with previews_command := ["--previews", toString previews_number ++ ":0"] }

/-- `Handbrake.burn_subtitle`. -/
def Handbrake.burn_subtitle (hb : Handbrake) (subtitle_track : Int) : Handbrake :=
  { hb with burn_subtitle_command :=
      ["--subtitle", toString subtitle_track, "--subtitle-burned"] }

/-- `Handbrake.audio_encoder`: the two fixed profiles; any other name
raises `ValueError`, modelled as the error branch. -/
def Handbrake.audio_encoder (hb : Handbrake) (aencoder : String) :
    Except String Handbrake :=
  if aencoder = "ac3" then
    Except.ok { hb with audio_encoder_command :=
      ["--aencoder", "ac3", "--ab", "448", "--mixdown", "5point1", "--arate", "auto"] }
  else if aencoder = "aac" then
    Except.ok { hb with audio_encoder_command :=
      ["--aencoder", "aac", "--ab", "256", "--mixdown", "stereo", "--arate", "auto"] }
  else
    Except.error (aencoder ++ " is an invalid option for audio encoder")

/-- `Handbrake.run`: raise (`TypeError`) when input, quality or audio
options are missing, otherwise assemble the full handbrakecli command
line in the script's fragment order. -/
def Handbrake.run (hb : Handbrake) : Except String (List String) :=
  if hb.input_command = [] then
    Except.error "handbrakecli missing input option"
  else if hb.quality_command = [] then
    Except.error "handbrakecli missing quality option"
  else if hb.audio_encoder_command = [] then
    Except.error "handbrakecli missing audio options"
  else
    Except.ok (["handbrakecli"] ++ hb.input_command ++ hb.output_command ++
      hb.start_at_command ++ hb.stop_at_command ++ hb.previews_command ++
      hb.crop_command ++ ["--markers"] ++ hb.encoder_command ++
      ["--no-comb-detect", "--no-decomb"] ++ hb.quality_command ++
      hb.audio_encoder_command ++ hb.burn_subtitle_command)

/-! ## The quality search (`find_quality_option`, lines 293-338) -/

/-- The fixed `steps` constant of `find_quality_option` (line 297). -/
def steps : ℕ := 5

/-- The sample indices of one search iteration: Python `range(1, steps)`,
i.e. `1, ..., steps - 1`. -/
def sampleIndices (steps : ℕ) : List ℕ :=
  List.range' 1 (steps - 1)

/-- `start_time_in_seconds = duration * sample_index / (steps + 1)`
(line 310). -/
def sampleStartTime (duration : ℚ) (steps : ℕ) (sample_index : ℕ) : ℚ :=
  duration * (sample_index : ℚ) / ((steps : ℚ) + 1)

/-- The sample file name `cq_{cq}_sample_{i}.mkv` under the temporary
directory (line 309). -/
def sampleFileName (tmpdir : String) (cq : Int) (sample_index : ℕ) : String :=
  tmpdir ++ "/cq_" ++ toString cq ++ "_sample_" ++ toString sample_index ++ ".mkv"

/-- `sample_bit_rate = sample_media_info.bitrate / 1000 + 2000`
(line 324): the probed bitrate in kbps plus the fixed correction. -/
def correctedSampleBitRate (raw_bitrate : ℚ) : ℚ :=
  raw_bitrate / 1000 + 2000

/-- The predicted bitrate of one search iteration (lines 308-327): sum
the corrected sample bitrates over `range(1, steps)` and divide the sum
by `steps`. `sampleBitRate cq i` is the oracle for the bitrate ffprobe
measures on sample `i` of candidate quality `cq`. -/
def predictedBitRate (sampleBitRate : Int → ℕ → ℚ) (steps : ℕ) (cq : Int) : ℚ :=
  (((sampleIndices steps).map
    (fun i => correctedSampleBitRate (sampleBitRate cq i))).sum) / (steps : ℚ)

/-- The per-sample encoder configuration of the search loop
(lines 311-320): input, output, audio profile from the primary track's
channel count, start offset, 20 second stop point, candidate quality. -/
def buildSampleEncoder (file_path : String) (tmpdir : String)
    (primary_channels : Int) (duration : ℚ) (steps : ℕ) (cq : Int)
    (sample_index : ℕ) : Except String Handbrake :=
  let encoder := Handbrake.mkNew
  let encoder := encoder.input file_path
  let encoder := encoder.output (sampleFileName tmpdir cq sample_index)
  match (if primary_channels ≤ 2 then encoder.audio_encoder "aac"
         else encoder.audio_encoder "ac3") with
  | Except.error e => Except.error e
  | Except.ok encoder =>
      Except.ok (((encoder.start_time
        (sampleStartTime duration steps sample_index)).stop_at 20).quality cq)

/-- `cq = int((low_cq + high_cq) / 2)` (line 305): Python's `int()` of a
float truncates toward zero, which on integer halves is `Int.tdiv`. -/
def midCq (low_cq high_cq : Int) : Int :=
  Int.tdiv (low_cq + high_cq) 2

/-- An upper bound on the number of loop iterations remaining from
bounds `low_cq`, `high_cq`: the size of the closed interval. -/
def searchFuel (low_cq high_cq : Int) : ℕ :=
  (high_cq + 1 - low_cq).toNat

/-- The binary-search loop of `find_quality_option` (lines 304-338),
written with explicit fuel (`searchFuel` of the initial bounds suffices,
see the termination theorem). `last_cq` is the value of the Python `cq`
variable from the previous iteration, returned when the bounds cross. -/
def cqSearchGo (predict : Int → ℚ) (target_bit_rate : ℚ) :
    ℕ → Int → Int → Int → Int
  | 0, _, _, last_cq => last_cq
  | fuel + 1, low_cq, high_cq, last_cq =>
    if low_cq ≤ high_cq then
      let cq := midCq low_cq high_cq
      let bit_rate_mean := predict cq
      if bit_rate_mean > target_bit_rate + 900 then
        cqSearchGo predict target_bit_rate fuel low_cq (cq - 1) cq
      else if bit_rate_mean < target_bit_rate then
        cqSearchGo predict target_bit_rate fuel (cq + 1) high_cq cq
      else
        cq
    else
      last_cq

/-- The list of midpoints the search loop evaluates, in order, from
bounds `low_cq`, `high_cq` (same branching as `cqSearchGo`). -/
def cqTraceGo (predict : Int → ℚ) (target_bit_rate : ℚ) :
    ℕ → Int → Int → List Int
  | 0, _, _ => []
  | fuel + 1, low_cq, high_cq =>
    if low_cq ≤ high_cq then
      let cq := midCq low_cq high_cq
      if predict cq > target_bit_rate + 900 then
        cq :: cqTraceGo predict target_bit_rate fuel low_cq (cq - 1)
      else if predict cq < target_bit_rate then
        cq :: cqTraceGo predict target_bit_rate fuel (cq + 1) high_cq
      else
        [cq]
    else
      []

/-- The initial low bound (lines 298-302): 20, or 25 when
`height <= 1080`. -/
def initialLowCq (height : Int) : Int :=
  if height ≤ 1080 then 25 else 20

/-- The initial high bound (lines 299-302): 80, or 75 when
`height <= 1080`. -/
def initialHighCq (height : Int) : Int :=
  if height ≤ 1080 then 75 else 80

/-- `find_quality_option`: run the search loop from the resolution-based
bounds. The fuel equals the initial interval size, which the
fuel-invariance theorem shows is enough for the loop to run to
completion. -/
def find_quality_option (sampleBitRate : Int → ℕ → ℚ) (height : Int)
    (target_bit_rate : ℚ) : Int :=
  cqSearchGo (predictedBitRate sampleBitRate steps) target_bit_rate
    (searchFuel (initialLowCq height) (initialHighCq height))
    (initialLowCq height) (initialHighCq height) 0

/-- The midpoints `find_quality_option` evaluates, in order. -/
def find_quality_trace (sampleBitRate : Int → ℕ → ℚ) (height : Int)
    (target_bit_rate : ℚ) : List Int :=
  cqTraceGo (predictedBitRate sampleBitRate steps) target_bit_rate
    (searchFuel (initialLowCq height) (initialHighCq height))
    (initialLowCq height) (initialHighCq height)

/-! ## Decision policy and the main flow -/

/-- `find_burn_subtitle_track` (lines 341-347): one pass over the
subtitle tracks; a track is returned if it is forced, or if the primary
audio language is not English and the track's language is English;
otherwise 0. -/
def find_burn_subtitle_track (primary_audio_language : String) :
    List Subtitle → Int
  | [] => 0
  | subtitle :: rest =>
    if subtitle.forced then subtitle.index
    else if primary_audio_language ≠ "eng" ∧ subtitle.language = "eng" then
      subtitle.index
    else
      find_burn_subtitle_track primary_audio_language rest

/-- Python `str.isdigit`: non-empty and all characters are digits. -/
def pyIsDigit (s : String) : Bool :=
  !s.data.isEmpty && s.data.all Char.isDigit

/-- The `--burn-subtitle` dispatch of the main block (lines 518-523): a
digit string burns that literal track; otherwise `auto` on a
non-Dolby-Vision source burns whatever `find_burn_subtitle_track`
returns; otherwise the encoder is left untouched. -/
def configureBurnSubtitle (burn_subtitle_track : String)
    (is_dolby_vision : Bool) (primary_audio_language : String)
    (subtitles : List Subtitle) (encoder : Handbrake) : Handbrake :=
  if pyIsDigit burn_subtitle_track then
    encoder.burn_subtitle ((burn_subtitle_track.toNat?).getD 0 : ℕ)
  else if burn_subtitle_track == "auto" && !is_dolby_vision then
    encoder.burn_subtitle (find_burn_subtitle_track primary_audio_language subtitles)
  else
    encoder

/-- The audio-profile choice made in the sample loop (lines 314-317) and
in the main block (lines 509-512): `aac` when the primary audio track
has at most 2 channels, `ac3` otherwise. -/
def configureAudio (channels : Int) (encoder : Handbrake) :
    Except String Handbrake :=
  if channels ≤ 2 then encoder.audio_encoder "aac"
  else encoder.audio_encoder "ac3"

/-- The arithmetic mean of a list of rationals (what the specification
calls the mean of the corrected sample bitrates). -/
def arithMean (l : List ℚ) : ℚ :=
  l.sum / (l.length : ℚ)

/-! ## Helper lemmas about the search loop -/

/-- The midpoint never drops below the low bound. -/
lemma le_midCq {low high : Int} (h : low ≤ high) : low ≤ midCq low high := by
  unfold midCq
  rcases le_or_lt 0 (low + high) with hs | hs
  · rw [Int.tdiv_eq_ediv hs (by norm_num)]
    omega
  · have hneg : Int.tdiv (low + high) 2 = -(Int.tdiv (-(low + high)) 2) := by
      rw [Int.neg_tdiv, neg_neg]
    rw [hneg, Int.tdiv_eq_ediv (by omega) (by norm_num)]
    omega

/-- The midpoint never exceeds the high bound. -/
lemma midCq_le {low high : Int} (h : low ≤ high) : midCq low high ≤ high := by
  unfold midCq
  rcases le_or_lt 0 (low + high) with hs | hs
  · rw [Int.tdiv_eq_ediv hs (by norm_num)]
    omega
  · have hneg : Int.tdiv (low + high) 2 = -(Int.tdiv (-(low + high)) 2) := by
      rw [Int.neg_tdiv, neg_neg]
    rw [hneg, Int.tdiv_eq_ediv (by omega) (by norm_num)]
    omega

/-- When the bounds have crossed, the loop body does not run and the
previous iteration's `cq` is what remains. -/
lemma cqSearchGo_stop (predict : Int → ℚ) (target : ℚ) (fuel : ℕ)
    {low high : Int} (last_cq : Int) (h : high < low) :
    cqSearchGo predict target fuel low high last_cq = last_cq := by
  cases fuel with
  | zero => rfl
  | succ f => exact if_neg (not_le.mpr h)

/-- When the bounds have crossed, no midpoint is evaluated. -/
lemma cqTraceGo_stop (predict : Int → ℚ) (target : ℚ) (fuel : ℕ)
    {low high : Int} (h : high < low) :
    cqTraceGo predict target fuel low high = [] := by
  cases fuel with
  | zero => rfl
  | succ f => exact if_neg (not_le.mpr h)

/-- One unfolding of the search loop. -/
lemma cqSearchGo_succ (predict : Int → ℚ) (target : ℚ) (fuel : ℕ)
    (low high last_cq : Int) :
    cqSearchGo predict target (fuel + 1) low high last_cq =
      if low ≤ high then
        if predict (midCq low high) > target + 900 then
          cqSearchGo predict target fuel low (midCq low high - 1) (midCq low high)
        else if predict (midCq low high) < target then
          cqSearchGo predict target fuel (midCq low high + 1) high (midCq low high)
        else midCq low high
      else last_cq := rfl

/-- One unfolding of the evaluation trace. -/
lemma cqTraceGo_succ (predict : Int → ℚ) (target : ℚ) (fuel : ℕ)
    (low high : Int) :
    cqTraceGo predict target (fuel + 1) low high =
      if low ≤ high then
        if predict (midCq low high) > target + 900 then
          midCq low high :: cqTraceGo predict target fuel low (midCq low high - 1)
        else if predict (midCq low high) < target then
          midCq low high :: cqTraceGo predict target fuel (midCq low high + 1) high
        else [midCq low high]
      else [] := rfl

/-- The loop's result does not depend on the fuel once the fuel covers
the size of the interval: the recursion genuinely terminates within
`searchFuel low high` iterations. -/
lemma cqSearchGo_fuel_congr (predict : Int → ℚ) (target : ℚ) :
    ∀ (n : ℕ) (low high : Int), searchFuel low high = n →
      ∀ (fuel fuel' : ℕ) (last_cq : Int), n ≤ fuel → n ≤ fuel' →
        cqSearchGo predict target fuel low high last_cq =
          cqSearchGo predict target fuel' low high last_cq := by
  intro n
  induction n using Nat.strong_induction_on with
  | _ n ih =>
    intro low high hn fuel fuel' last_cq hf hf'
    rcases lt_or_le high low with hlh | hlh
    · rw [cqSearchGo_stop _ _ _ _ hlh, cqSearchGo_stop _ _ _ _ hlh]
    · have hn1 : 1 ≤ n := by
        subst hn; unfold searchFuel; omega
      obtain ⟨f, rfl⟩ : ∃ f, fuel = f + 1 := ⟨fuel - 1, by omega⟩
      obtain ⟨f', rfl⟩ : ∃ f', fuel' = f' + 1 := ⟨fuel' - 1, by omega⟩
      have hml := le_midCq hlh
      have hmh := midCq_le hlh
      rw [cqSearchGo_succ, cqSearchGo_succ, if_pos hlh, if_pos hlh]
      by_cases h1 : predict (midCq low high) > target + 900
      · rw [if_pos h1, if_pos h1]
        refine ih (searchFuel low (midCq low high - 1)) ?_ _ _ rfl _ _ _ ?_ ?_ <;>
          (unfold searchFuel at hn ⊢; omega)
      · rw [if_neg h1, if_neg h1]
        by_cases h2 : predict (midCq low high) < target
        · rw [if_pos h2, if_pos h2]
          refine ih (searchFuel (midCq low high + 1) high) ?_ _ _ rfl _ _ _ ?_ ?_ <;>
            (unfold searchFuel at hn ⊢; omega)
        · rw [if_neg h2, if_neg h2]

/-- Every midpoint the loop evaluates lies inside the bounds it started
from. -/
lemma cqTraceGo_bounds (predict : Int → ℚ) (target : ℚ) :
    ∀ (fuel : ℕ) (low high c : Int),
      c ∈ cqTraceGo predict target fuel low high → low ≤ c ∧ c ≤ high := by
  intro fuel
  induction fuel with
  | zero =>
    intro low high c hc
    simp [cqTraceGo] at hc
  | succ f ihf =>
    intro low high c hc
    rcases lt_or_le high low with hlh | hlh
    · rw [cqTraceGo_stop _ _ _ hlh] at hc
      simp at hc
    · have hml := le_midCq hlh
      have hmh := midCq_le hlh
      rw [cqTraceGo_succ, if_pos hlh] at hc
      by_cases h1 : predict (midCq low high) > target + 900
      · rw [if_pos h1] at hc
        rcases List.mem_cons.mp hc with rfl | hc
        · exact ⟨hml, hmh⟩
        · have := ihf _ _ _ hc
          omega
      · rw [if_neg h1] at hc
        by_cases h2 : predict (midCq low high) < target
        · rw [if_pos h2] at hc
          rcases List.mem_cons.mp hc with rfl | hc
          · exact ⟨hml, hmh⟩
          · have := ihf _ _ _ hc
            omega
        · rw [if_neg h2] at hc
          rcases List.mem_singleton.mp hc with rfl
          exact ⟨hml, hmh⟩

/-- Folding streams that are not video streams never touches the Dolby
Vision flag. -/
lemma foldl_nonvideo_dv : ∀ (l : List MediaStream) (acc : ProbeAcc),
    (∀ s ∈ l, s.isVideo = false) →
    (List.foldl processStream acc l).is_dolby_vision = acc.is_dolby_vision := by
  intro l
  induction l with
  | nil => intro acc _; rfl
  | cons s rest ih =>
    intro acc hl
    have hs : s.isVideo = false := hl s (List.mem_cons_self s rest)
    have hrest : ∀ x ∈ rest, x.isVideo = false :=
      fun x hx => hl x (List.mem_cons_of_mem s hx)
    rw [List.foldl_cons, ih _ hrest]
    cases s with
    | video h fr sdl => simp [MediaStream.isVideo] at hs
    | audio lang ch => rfl
    | subtitle lang d c => rfl

/-! ## Claim theorems -/

/-- Claim C4: in every iteration of the quality search, a predicted mean
above `target + 900` moves the high bound to `midpoint - 1`, a predicted
mean below `target` moves the low bound to `midpoint + 1`, and otherwise
the search stops at once returning the midpoint, whose predicted mean
then satisfies `target ≤ mean ≤ target + 900`. -/
theorem claim_C4_step_and_acceptance (predict : Int → ℚ) (target : ℚ)
    (fuel : ℕ) (low high last_cq : Int) (h : low ≤ high) :
    (predict (midCq low high) > target + 900 →
      cqSearchGo predict target (fuel + 1) low high last_cq =
        cqSearchGo predict target fuel low (midCq low high - 1) (midCq low high)) ∧
    (predict (midCq low high) < target →
      cqSearchGo predict target (fuel + 1) low high last_cq =
        cqSearchGo predict target fuel (midCq low high + 1) high (midCq low high)) ∧
    (target ≤ predict (midCq low high) → predict (midCq low high) ≤ target + 900 →
      cqSearchGo predict target (fuel + 1) low high last_cq = midCq low high ∧
      target ≤ predict (cqSearchGo predict target (fuel + 1) low high last_cq) ∧
      predict (cqSearchGo predict target (fuel + 1) low high last_cq) ≤ target + 900) := by
  refine ⟨?_, ?_, ?_⟩
  · intro h1
    rw [cqSearchGo_succ, if_pos h, if_pos h1]
  · intro h2
    have h1 : ¬ predict (midCq low high) > target + 900 := by
      push_neg
      linarith
    rw [cqSearchGo_succ, if_pos h, if_neg h1, if_pos h2]
  · intro hlo hhi
    have h1 : ¬ predict (midCq low high) > target + 900 := not_lt.mpr hhi
    have h2 : ¬ predict (midCq low high) < target := not_lt.mpr hlo
    have heq : cqSearchGo predict target (fuel + 1) low high last_cq = midCq low high := by
      rw [cqSearchGo_succ, if_pos h, if_neg h1, if_neg h2]
    exact ⟨heq, by rw [heq]; exact hlo, by rw [heq]; exact hhi⟩

/-- Claim C4 witness: with a constant predicted mean of 950 and a target
of 100, the band `[100, 1000]` is hit at the first midpoint 50 and the
search stops there. -/
theorem claim_C4_witness :
    cqSearchGo (fun _ => (950 : ℚ)) 100 4 25 75 0 = 50 ∧
    (100 : ℚ) ≤ 950 ∧ (950 : ℚ) ≤ 100 + 900 := by
  have h := (claim_C4_step_and_acceptance (fun _ => (950 : ℚ)) 100 3 25 75 0
    (by decide)).2.2 (by norm_num) (by norm_num)
  refine ⟨h.1.trans (by decide), by norm_num, by norm_num⟩

/-- Claim C5: every candidate quality the search evaluates lies in
`[25, 75]` when the source height is at most 1080 and in `[20, 80]`
otherwise. -/
theorem claim_C5_bounds (sampleBitRate : Int → ℕ → ℚ) (height : Int)
    (target_bit_rate : ℚ) (c : Int)
    (hc : c ∈ find_quality_trace sampleBitRate height target_bit_rate) :
    (height ≤ 1080 → 25 ≤ c ∧ c ≤ 75) ∧
    (1080 < height → 20 ≤ c ∧ c ≤ 80) := by
  unfold find_quality_trace at hc
  have hb := cqTraceGo_bounds _ _ _ _ _ _ hc
  constructor
  · intro hh
    rw [initialLowCq, initialHighCq, if_pos hh, if_pos hh] at hb
    exact hb
  · intro hh
    rw [initialLowCq, initialHighCq, if_neg (not_le.mpr hh), if_neg (not_le.mpr hh)] at hb
    omega

/-- Claim C5 witness: on a 720p source with samples all measuring 0 bps
and target 4000, the first evaluated midpoint is 50, inside `[25, 75]`. -/
theorem claim_C5_witness :
    (50 : Int) ∈ find_quality_trace (fun _ _ => 0) 720 4000 ∧
    (((720 : Int) ≤ 1080 → 25 ≤ (50 : Int) ∧ (50 : Int) ≤ 75) ∧
     ((1080 : Int) < 720 → 20 ≤ (50 : Int) ∧ (50 : Int) ≤ 80)) := by
  have hmem : (50 : Int) ∈ find_quality_trace (fun _ _ => 0) 720 4000 := by
    have hpred : predictedBitRate (fun _ _ => 0) steps 50 = 1600 := by
      have hs : sampleIndices steps = [1, 2, 3, 4] := rfl
      rw [predictedBitRate, hs]
      norm_num [correctedSampleBitRate, steps]
    have hlow : initialLowCq 720 = 25 := by decide
    have hhigh : initialHighCq 720 = 75 := by decide
    unfold find_quality_trace
    rw [hlow, hhigh]
    have hfuel : searchFuel 25 75 = 50 + 1 := by decide
    rw [hfuel, cqTraceGo_succ, if_pos (by decide : (25 : Int) ≤ 75)]
    have hmid : midCq 25 75 = 50 := by decide
    rw [hmid, hpred, if_neg (by norm_num), if_pos (by norm_num)]
    exact List.mem_cons_self 50 _
  exact ⟨hmem, claim_C5_bounds (fun _ _ => 0) 720 4000 50 hmem⟩

/-- Claim C9: running the encoder with input, quality or audio options
unset fails with an error instead of assembling the external command. -/
theorem claim_C9_run_requires_config (hb : Handbrake)
    (h : hb.input_command = [] ∨ hb.quality_command = [] ∨
      hb.audio_encoder_command = []) :
    ∃ msg, hb.run = Except.error msg := by
  unfold Handbrake.run
  by_cases h1 : hb.input_command = []
  · exact ⟨_, if_pos h1⟩
  · by_cases h2 : hb.quality_command = []
    · rw [if_neg h1]
      exact ⟨_, if_pos h2⟩
    · rcases h with h | h | h
      · exact absurd h h1
      · exact absurd h h2
      · rw [if_neg h1, if_neg h2]
        exact ⟨_, if_pos h⟩

/-- Claim C9 witness: the freshly initialised builder has all three
mandatory options unset, and running it errors out. -/
theorem claim_C9_witness :
    ∃ msg, Handbrake.mkNew.run = Except.error msg :=
  claim_C9_run_requires_config Handbrake.mkNew (Or.inl rfl)

/-- Claim C10: the search loop terminates on every input: every
iteration's midpoint lies between the current bounds, both continuation
branches strictly shrink the interval, and the loop's result is already
reached within `searchFuel low high` iterations (more fuel changes
nothing). -/
theorem claim_C10_termination (predict : Int → ℚ) (target : ℚ)
    (low high last_cq : Int) (h : low ≤ high) :
    (low ≤ midCq low high ∧ midCq low high ≤ high) ∧
    searchFuel low (midCq low high - 1) < searchFuel low high ∧
    searchFuel (midCq low high + 1) high < searchFuel low high ∧
    (∀ fuel, searchFuel low high ≤ fuel →
      cqSearchGo predict target fuel low high last_cq =
        cqSearchGo predict target (searchFuel low high) low high last_cq) := by
  have h1 := le_midCq h
  have h2 := midCq_le h
  refine ⟨⟨h1, h2⟩, ?_, ?_, ?_⟩
  · unfold searchFuel
    omega
  · unfold searchFuel
    omega
  · intro fuel hf
    exact cqSearchGo_fuel_congr predict target (searchFuel low high) low high rfl
      fuel (searchFuel low high) last_cq hf le_rfl

/-- Claim C10 witness: concrete instance at the 1080p bounds. -/
theorem claim_C10_witness :
    ((25 : Int) ≤ midCq 25 75 ∧ midCq 25 75 ≤ 75) ∧
    searchFuel 25 (midCq 25 75 - 1) < searchFuel 25 75 ∧
    searchFuel (midCq 25 75 + 1) 75 < searchFuel 25 75 ∧
    (∀ fuel, searchFuel 25 75 ≤ fuel →
      cqSearchGo (fun _ => (0 : ℚ)) 4000 fuel 25 75 0 =
        cqSearchGo (fun _ => (0 : ℚ)) 4000 (searchFuel 25 75) 25 75 0) :=
  claim_C10_termination (fun _ => (0 : ℚ)) 4000 25 75 0 (by decide)

/-- Claim C6: for a probe of a stream list containing exactly one video
stream, the Dolby Vision flag is true exactly when the video stream's
side data list is non-empty and its first record's type tag is the DOVI
configuration record; any other tag in first position leaves the flag
false. -/
theorem claim_C6_dolby_vision_flag (pre post : List MediaStream)
    (h : Int) (fr : String) (sdl : List String)
    (hpre : ∀ s ∈ pre, s.isVideo = false)
    (hpost : ∀ s ∈ post, s.isVideo = false) :
    (probeStreams (pre ++ MediaStream.video h fr sdl :: post)).is_dolby_vision = true ↔
      sdl ≠ [] ∧ sdl.headD "" = "DOVI configuration record" := by
  unfold probeStreams
  rw [List.foldl_append, List.foldl_cons, foldl_nonvideo_dv _ _ hpost]
  have hacc : (List.foldl processStream probeInit pre).is_dolby_vision = false := by
    rw [foldl_nonvideo_dv _ _ hpre]
    rfl
  cases sdl with
  | nil => simp [processStream, hacc]
  | cons t ts => simp [processStream, beq_iff_eq]

/-- Claim C6 witness: an audio stream followed by a video stream whose
first side data record is the DOVI configuration record sets the flag. -/
theorem claim_C6_witness :
    ((probeStreams [MediaStream.audio "eng" 6,
        MediaStream.video 2160 "24000/1001" ["DOVI configuration record"]]).is_dolby_vision
      = true ↔
      (["DOVI configuration record"] : List String) ≠ [] ∧
        (["DOVI configuration record"] : List String).headD "" =
          "DOVI configuration record") ∧
    (probeStreams [MediaStream.audio "eng" 6,
        MediaStream.video 2160 "24000/1001" ["DOVI configuration record"]]).is_dolby_vision
      = true := by
  refine ⟨claim_C6_dolby_vision_flag [MediaStream.audio "eng" 6] []
    2160 "24000/1001" ["DOVI configuration record"] (by decide) (by decide), by decide⟩

/-- Claim C7: the audio profile is a two-way choice on the primary
track's channel count: at most 2 channels selects the aac stereo
profile (boundary 2 included), more than 2 selects the ac3 5.1 profile,
and the encoder setter accepts no profile name other than these two. -/
theorem claim_C7_audio_profile (channels : Int) (encoder : Handbrake) :
    (channels ≤ 2 → configureAudio channels encoder =
      Except.ok { encoder with audio_encoder_command :=
        ["--aencoder", "aac", "--ab", "256", "--mixdown", "stereo", "--arate", "auto"] }) ∧
    (2 < channels → configureAudio channels encoder =
      Except.ok { encoder with audio_encoder_command :=
        ["--aencoder", "ac3", "--ab", "448", "--mixdown", "5point1", "--arate", "auto"] }) ∧
    (∀ (aencoder : String) (result : Handbrake),
      encoder.audio_encoder aencoder = Except.ok result →
      aencoder = "aac" ∨ aencoder = "ac3") := by
  refine ⟨?_, ?_, ?_⟩
  · intro hch
    rw [configureAudio, if_pos hch]
    rfl
  · intro hch
    rw [configureAudio, if_neg (not_le.mpr hch)]
    rfl
  · intro a r har
    by_cases h1 : a = "ac3"
    · exact Or.inr h1
    · by_cases h2 : a = "aac"
      · exact Or.inl h2
      · rw [Handbrake.audio_encoder, if_neg h1, if_neg h2] at har
        exact absurd har (by simp)

/-- Claim C7 witness: exactly 2 channels selects the stereo aac profile
and 6 channels selects the surround ac3 profile. -/
theorem claim_C7_witness :
    configureAudio 2 Handbrake.mkNew =
      Except.ok { Handbrake.mkNew with audio_encoder_command :=
        ["--aencoder", "aac", "--ab", "256", "--mixdown", "stereo", "--arate", "auto"] } ∧
    configureAudio 6 Handbrake.mkNew =
      Except.ok { Handbrake.mkNew with audio_encoder_command :=
        ["--aencoder", "ac3", "--ab", "448", "--mixdown", "5point1", "--arate", "auto"] } :=
  ⟨(claim_C7_audio_profile 2 Handbrake.mkNew).1 (by decide),
   (claim_C7_audio_profile 6 Handbrake.mkNew).2.1 (by decide)⟩

/-- Claim C2 counterexample: with primary audio language `fra`,
subtitle track 1 non-forced English and track 2 forced, the code
returns 1 (the fallback fires first), not 2 as the claim's
forced-priority reading requires. -/
theorem claim_C2_counterexample :
    find_burn_subtitle_track "fra"
      [⟨1, "eng", false, "hdmv_pgs_subtitle"⟩,
       ⟨2, "fra", true, "hdmv_pgs_subtitle"⟩] = 1 ∧
    (⟨2, "fra", true, "hdmv_pgs_subtitle"⟩ : Subtitle).forced = true ∧
    ¬ find_burn_subtitle_track "fra"
      [⟨1, "eng", false, "hdmv_pgs_subtitle"⟩,
       ⟨2, "fra", true, "hdmv_pgs_subtitle"⟩] = 2 := by
  decide

/-- Claim C2 amended: the selection is a single pass returning the index
of the first subtitle track that is forced or that matches the
foreign-audio English fallback, whichever track comes first (so a
non-forced English track can shadow a later forced track when the
primary audio is not English); 0 when no track matches. -/
theorem claim_C2_amended_first_match (primary_audio_language : String)
    (subtitles : List Subtitle) :
    find_burn_subtitle_track primary_audio_language subtitles =
      match subtitles.find? (fun s =>
        s.forced || ((primary_audio_language != "eng") && (s.language == "eng"))) with
      | some s => s.index
      | none => 0 := by
  induction subtitles with
  | nil => rfl
  | cons s rest ih =>
    rw [find_burn_subtitle_track, List.find?]
    by_cases hf : s.forced
    · rw [if_pos hf]
      simp [hf]
    · rw [if_neg hf]
      by_cases hcond : primary_audio_language ≠ "eng" ∧ s.language = "eng"
      · rw [if_pos hcond]
        have : (s.forced || ((primary_audio_language != "eng") && (s.language == "eng"))) = true := by
          simp [hf, bne_iff_ne, hcond.1, hcond.2]
        rw [this]
      · rw [if_neg hcond]
        have : (s.forced || ((primary_audio_language != "eng") && (s.language == "eng"))) = false := by
          rw [not_and_or] at hcond
          rcases hcond with hc | hc
          · simp at hc
            simp [hf, hc]
          · simp [hf, hc]
        rw [this]
        exact ih

/-- Claim C3 counterexample: in auto mode on a non-Dolby-Vision source
with a single non-forced English subtitle track and English primary
audio, the final configuration still carries a subtitle burn selection,
for track 0. -/
theorem claim_C3_counterexample :
    (configureBurnSubtitle "auto" false "eng"
      [⟨1, "eng", false, "hdmv_pgs_subtitle"⟩] Handbrake.mkNew).burn_subtitle_command ≠ [] ∧
    (configureBurnSubtitle "auto" false "eng"
      [⟨1, "eng", false, "hdmv_pgs_subtitle"⟩] Handbrake.mkNew).burn_subtitle_command =
      ["--subtitle", "0", "--subtitle-burned"] := by
  decide

/-- Claim C3 amended: in auto mode on a non-Dolby-Vision source, when no
subtitle track is forced and the primary audio language is English, the
subtitle search returns the sentinel 0 and the encoder is nevertheless
configured to burn subtitle track 0 (the burn arguments are emitted with
track number 0 rather than omitted). -/
theorem claim_C3_amended_burn_zero (subtitles : List Subtitle)
    (encoder : Handbrake) (hforced : ∀ s ∈ subtitles, s.forced = false) :
    find_burn_subtitle_track "eng" subtitles = 0 ∧
    (configureBurnSubtitle "auto" false "eng" subtitles encoder).burn_subtitle_command =
      ["--subtitle", "0", "--subtitle-burned"] := by
  have hfind : find_burn_subtitle_track "eng" subtitles = 0 := by
    induction subtitles with
    | nil => rfl
    | cons s rest ih =>
      rw [find_burn_subtitle_track,
        if_neg (by rw [hforced s (List.mem_cons_self s rest)]; exact Bool.false_ne_true),
        if_neg (by intro hc; exact hc.1 rfl)]
      exact ih fun x hx => hforced x (List.mem_cons_of_mem s hx)
  refine ⟨hfind, ?_⟩
  rw [configureBurnSubtitle, if_neg (by decide),
    if_pos (by decide), hfind]
  rfl

/-- Claim C3 amended witness: one non-forced English track, English
audio: track 0 is selected and burned. -/
theorem claim_C3_witness :
    find_burn_subtitle_track "eng" [⟨1, "eng", false, "hdmv_pgs_subtitle"⟩] = 0 ∧
    (configureBurnSubtitle "auto" false "eng"
      [⟨1, "eng", false, "hdmv_pgs_subtitle"⟩] Handbrake.mkNew).burn_subtitle_command =
      ["--subtitle", "0", "--subtitle-burned"] :=
  claim_C3_amended_burn_zero [⟨1, "eng", false, "hdmv_pgs_subtitle"⟩]
    Handbrake.mkNew (by decide)

/-- Claim C1 counterexample: with the script's `steps = 5`, the loop
`range(1, steps)` produces only 4 sample clips, not 5, and the predicted
bitrate divides the corrected sum by 5, which is not the arithmetic mean
of the 4 corrected sample bitrates (all samples measuring 0 bps gives a
prediction of 1600 against a mean of 2000). -/
theorem claim_C1_counterexample :
    ¬ (sampleIndices steps).length = steps ∧
    predictedBitRate (fun _ _ => 0) steps 50 = 1600 ∧
    arithMean ((sampleIndices steps).map
      (fun i => correctedSampleBitRate ((fun (_ : Int) (_ : ℕ) => (0 : ℚ)) 50 i))) = 2000 ∧
    predictedBitRate (fun _ _ => 0) steps 50 ≠
      arithMean ((sampleIndices steps).map
        (fun i => correctedSampleBitRate ((fun (_ : Int) (_ : ℕ) => (0 : ℚ)) 50 i))) := by
  have hs : sampleIndices steps = [1, 2, 3, 4] := rfl
  have h1 : predictedBitRate (fun _ _ => 0) steps 50 = 1600 := by
    rw [predictedBitRate, hs]
    norm_num [correctedSampleBitRate, steps]
  have h2 : arithMean ((sampleIndices steps).map
      (fun i => correctedSampleBitRate ((fun (_ : Int) (_ : ℕ) => (0 : ℚ)) 50 i))) = 2000 := by
    rw [hs]
    norm_num [arithMean, correctedSampleBitRate]
  refine ⟨by decide, h1, h2, ?_⟩
  rw [h1, h2]
  norm_num

/-- Claim C1 amended: each quality-search iteration produces
`steps - 1 = 4` sample clips at offsets `duration * i / (steps + 1)` for
`i = 1, ..., steps - 1`, each capped at a 20-second stop point and
encoded at the candidate quality; each corrected sample bitrate is the
measured bitrate in kbps plus 2000; and the predicted full bitrate is
the sum of the corrected sample bitrates divided by `steps` (not their
arithmetic mean). -/
theorem claim_C1_amended_sampling (sampleBitRate : Int → ℕ → ℚ)
    (duration : ℚ) (cq channels : Int) (file_path tmpdir : String) :
    (sampleIndices steps).length = steps - 1 ∧ steps = 5 ∧
    (sampleIndices steps).map (sampleStartTime duration steps) =
      [duration * 1 / 6, duration * 2 / 6, duration * 3 / 6, duration * 4 / 6] ∧
    (∀ i ∈ sampleIndices steps, ∃ e,
      buildSampleEncoder file_path tmpdir channels duration steps cq i = Except.ok e ∧
      e.stop_at_command = ["--stop-at", "seconds:20s"] ∧
      e.start_at_command = ["--start-at",
        "seconds:" ++ toString (sampleStartTime duration steps i) ++ "s"] ∧
      e.quality_command = ["--quality", toString cq]) ∧
    (∀ raw, correctedSampleBitRate raw = raw / 1000 + 2000) ∧
    predictedBitRate sampleBitRate steps cq =
      (correctedSampleBitRate (sampleBitRate cq 1) +
       correctedSampleBitRate (sampleBitRate cq 2) +
       correctedSampleBitRate (sampleBitRate cq 3) +
       correctedSampleBitRate (sampleBitRate cq 4)) / 5 := by
  have hs : sampleIndices steps = [1, 2, 3, 4] := rfl
  refine ⟨by decide, rfl, ?_, ?_, fun raw => rfl, ?_⟩
  · rw [hs]
    simp only [List.map_cons, List.map_nil, sampleStartTime, steps]
    norm_num
  · intro i hi
    rcases le_or_lt channels 2 with hch | hch
    · rw [buildSampleEncoder, if_pos hch]
      exact ⟨_, rfl, rfl, rfl, rfl⟩
    · rw [buildSampleEncoder, if_neg (not_le.mpr hch)]
      exact ⟨_, rfl, rfl, rfl, rfl⟩
  · rw [predictedBitRate, hs]
    simp only [List.map_cons, List.map_nil, List.sum_cons, List.sum_nil, steps]
    push_cast
    ring

/-- Claim C1 amended witness: concrete instantiation at sample index 2
of a 600-second stereo source probed at quality 30. -/
theorem claim_C1_witness :
    (sampleIndices steps).length = steps - 1 ∧
    (∃ e, buildSampleEncoder "movie.mkv" "tmp" 2 600 steps 30 2 = Except.ok e ∧
      e.stop_at_command = ["--stop-at", "seconds:20s"] ∧
      e.start_at_command = ["--start-at",
        "seconds:" ++ toString (sampleStartTime 600 steps 2) ++ "s"] ∧
      e.quality_command = ["--quality", toString (30 : Int)]) ∧
    predictedBitRate (fun _ _ => 0) steps 30 =
      (correctedSampleBitRate 0 + correctedSampleBitRate 0 +
       correctedSampleBitRate 0 + correctedSampleBitRate 0) / 5 :=
  ⟨(claim_C1_amended_sampling (fun _ _ => 0) 600 30 2 "movie.mkv" "tmp").1,
   (claim_C1_amended_sampling (fun _ _ => 0) 600 30 2 "movie.mkv" "tmp").2.2.2.1
     2 (by decide),
   (claim_C1_amended_sampling (fun _ _ => 0) 600 30 2 "movie.mkv" "tmp").2.2.2.2.2⟩

/-- Claim C8: when no evaluated midpoint ever lands in the acceptance
band, the search still returns a value, namely the last midpoint the
loop evaluated before the bounds crossed. -/
theorem claim_C8_last_midpoint (predict : Int → ℚ) (target : ℚ) :
    ∀ (fuel : ℕ) (low high last_cq : Int), low ≤ high →
      searchFuel low high ≤ fuel →
      (∀ c ∈ cqTraceGo predict target fuel low high,
        ¬ (target ≤ predict c ∧ predict c ≤ target + 900)) →
      ∃ last, (cqTraceGo predict target fuel low high).getLast? = some last ∧
        cqSearchGo predict target fuel low high last_cq = last := by
  intro fuel
  induction fuel with
  | zero =>
    intro low high last_cq hlh hfuel _
    exfalso
    unfold searchFuel at hfuel
    omega
  | succ f ih =>
    intro low high last_cq hlh hfuel hall
    have hml := le_midCq hlh
    have hmh := midCq_le hlh
    by_cases h1 : predict (midCq low high) > target + 900
    · rw [cqTraceGo_succ, if_pos hlh, if_pos h1] at hall ⊢
      rw [cqSearchGo_succ, if_pos hlh, if_pos h1]
      rcases le_or_lt low (midCq low high - 1) with hsub | hsub
      · obtain ⟨last, hlast, hgo⟩ := ih low (midCq low high - 1) (midCq low high) hsub
          (by unfold searchFuel at hfuel ⊢; omega)
          (fun c hc => hall c (List.mem_cons_of_mem _ hc))
        refine ⟨last, ?_, hgo⟩
        cases hsubtrace : cqTraceGo predict target f low (midCq low high - 1) with
        | nil =>
          rw [hsubtrace] at hlast
          simp at hlast
        | cons a as =>
          rw [hsubtrace] at hlast
          rw [List.getLast?_cons_cons]
          exact hlast
      · rw [cqTraceGo_stop _ _ _ hsub, cqSearchGo_stop _ _ _ _ hsub]
        exact ⟨midCq low high, rfl, rfl⟩
    · by_cases h2 : predict (midCq low high) < target
      · rw [cqTraceGo_succ, if_pos hlh, if_neg h1, if_pos h2] at hall ⊢
        rw [cqSearchGo_succ, if_pos hlh, if_neg h1, if_pos h2]
        rcases le_or_lt (midCq low high + 1) high with hsub | hsub
        · obtain ⟨last, hlast, hgo⟩ := ih (midCq low high + 1) high (midCq low high) hsub
            (by unfold searchFuel at hfuel ⊢; omega)
            (fun c hc => hall c (List.mem_cons_of_mem _ hc))
          refine ⟨last, ?_, hgo⟩
          cases hsubtrace : cqTraceGo predict target f (midCq low high + 1) high with
          | nil =>
            rw [hsubtrace] at hlast
            simp at hlast
          | cons a as =>
            rw [hsubtrace] at hlast
            rw [List.getLast?_cons_cons]
            exact hlast
        · rw [cqTraceGo_stop _ _ _ hsub, cqSearchGo_stop _ _ _ _ hsub]
          exact ⟨midCq low high, rfl, rfl⟩
      · exfalso
        refine hall (midCq low high) ?_ ⟨not_lt.mp h2, not_lt.mp h1⟩
        rw [cqTraceGo_succ, if_pos hlh, if_neg h1, if_neg h2]
        exact List.mem_singleton.mpr rfl

/-- Claim C8 witness: a predicted mean of 1000000 at every quality with
target 0 never lands in the band, so the bounds cross and the last
evaluated midpoint is returned. -/
theorem claim_C8_witness :
    ∃ last, (cqTraceGo (fun _ => (1000000 : ℚ)) 0 51 25 75).getLast? = some last ∧
      cqSearchGo (fun _ => (1000000 : ℚ)) 0 51 25 75 0 = last :=
  claim_C8_last_midpoint (fun _ => (1000000 : ℚ)) 0 51 25 75 0 (by decide)
    (by decide) (by intro c _; norm_num)

end VideoEncode
